import Mathlib

/-!
Verification of the window-filtering module `xscale/filtering/linearfilters.py`.

The Python source is shallowly embedded below.

* The kernel-building loop of `Window.set` (lines 148-170) is embedded at the
  level of array shapes: `np.outer`, `np.squeeze` and `np.expand_dims` are
  modelled by their effect on the shape of the running kernel, which is all
  the rank/length claims depend on.
* `_lanczos` (lines 30-56) is embedded by its index grid: the module activates
  `from __future__ import division`, so `n / 2` is true division, and the grid
  `np.arange(-n/2 + 1, n/2 + 1)` consists of exact rationals.
* `_infer_arg` (lines 349-373) is embedded over a tagged argument type that
  mirrors the `None` / scalar / dict-like / iterable dispatch of the source.
* `Window.convolve` (lines 173-212) and `Window.boundary_weights`
  (lines 241-261) are embedded for one-dimensional labelled arrays, with
  rational data and `none` for missing values (NaN).  `scipy.ndimage.convolve`
  is modelled by `ndConvolve` with the documented boundary-mode extensions;
  the dask `map_overlap` chunked execution is modelled by the whole-array
  convolution it is designed to reproduce.  Values of mismatched shapes are
  combined positionally (broadcasting of degenerate shapes is not modelled;
  the theorems below never rely on it).
-/

/-- Shape of the result of `np.squeeze`: every unit axis is removed. -/
def npSqueeze (s : List Nat) : List Nat := s.filter (fun d => d != 1)

/-- Shape of `np.outer a b` where `b` is a 1-d array of length `m`: both
arguments are flattened, giving a matrix of shape `(size a, m)`.  The size of
an array is the product of its shape; the Python scalar `1.` has shape `[]`
and size 1. -/
def npOuterShape (s : List Nat) (m : Nat) : List Nat := [s.prod, m]

/-- Shape of `np.expand_dims` at axis `i`: a unit axis is inserted at
position `i`.  Positions past the current rank append at the end, matching
the slicing-based implementation of the numpy contemporary with this
Python-2 source (`shape[:axis] + (1,) + shape[axis:]`). -/
def npExpandDims (i : Nat) (s : List Nat) : List Nat := s.take i ++ 1 :: s.drop i

/-- One iteration of the kernel-building loop of `Window.set` (lines
148-170) at axis position `i`: a filtering dimension of order `m`
contributes `self.coefficients = np.outer(self.coefficients, coefficients1d)`
followed by `self.coefficients = self.coefficients.squeeze()`, where
`coefficients1d` has length `m` (`sig.get_window(..., order)` and
`sig.firwin(order, ...)` both return `order` taps); a non-filtering
dimension contributes `np.expand_dims(self.coefficients, axis=axis_num)`. -/
def buildStep (s : List Nat) (i : Nat) : Option Nat → List Nat
  | some m => npSqueeze (npOuterShape s m)
  | none => npExpandDims i s

def buildKernelShapeAux : List Nat → Nat → List (Option Nat) → List Nat
  | s, _, [] => s
  | s, i, o :: rest => buildKernelShapeAux (buildStep s i o) (i + 1) rest

/-- Shape of `Window.coefficients` after `Window.set`.  A configuration lists,
per array axis in the array's own order, `some order` for a filtering
dimension (a member of `self.dims`) and `none` otherwise.  `set` starts from
the scalar `1.` (shape `[]`) and folds `buildStep` over the axes. -/
def buildKernelShape (cfg : List (Option Nat)) : List Nat :=
  buildKernelShapeAux [] 0 cfg

def buildDepthAux : Nat → List (Option Nat) → List (Nat × Nat)
  | _, [] => []
  | i, some m :: rest => (i, m % 2) :: buildDepthAux (i + 1) rest
  | i, none :: rest => buildDepthAux (i + 1) rest

/-- The `_depth` dictionary built by `Window.set` (line 152), keyed by axis
position: only filtering axes receive an entry, with value `order % 2`. -/
def buildDepth (cfg : List (Option Nat)) : List (Nat × Nat) := buildDepthAux 0 cfg

/-- Effective halo depth consumed by `map_overlap` (line 204): dask coerces a
depth dictionary by treating axes missing from it as depth 0. -/
def depthAt (cfg : List (Option Nat)) (i : Nat) : Nat :=
  ((buildDepth cfg).lookup i).getD 0

/-- The index grid `k = np.arange(-n/2 + 1, n/2 + 1)` of `_lanczos` (line
48).  Because the module activates `from __future__ import division`, `n / 2`
is the exact rational `n/2`; for odd `n` the grid is the half-integer
progression `-(n-2)/2, ..., n/2` and never contains `0`. -/
def lanczosK (n : ℤ) : List ℚ :=
  (List.range n.toNat).map (fun i => -(n : ℚ) / 2 + 1 + (i : ℚ))

/-- The index used by the center write `w[n / 2] = 2. * fc` of `_lanczos`
(line 55), again under true division: a rational, not an integer, whenever
`n` is odd. -/
def lanczosCenterIndex (n : ℤ) : ℚ := (n : ℚ) / 2

/-- Parameter handling of `_lanczos` (lines 46-48): a length whose remainder
modulo 2 is not 1 is rejected with `ValueError("n must an odd integer")`
before any coefficient is computed; otherwise the window is computed over
the grid `lanczosK n`.  (Python's `%` on ints returns a nonnegative
remainder for positive divisors, as does `Int.emod`.) -/
def lanczosGrid (n : ℤ) : Except String (List ℚ) :=
  if n % 2 = 1 then Except.ok (lanczosK n) else Except.error "n must an odd integer"

/-- The shapes an argument to `_infer_arg` can take: Python `None`, a scalar
(`utils.is_scalar`), a dict-like mapping (`utils.is_dict_like`), or a
non-string iterable. -/
inductive InferArg (α : Type) where
  | null : InferArg α
  | scalar (v : α) : InferArg α
  | mapping (m : List (String × α)) : InferArg α
  | sequence (l : List α) : InferArg α

/-- A value resolved by `_infer_arg` for one dimension: either a single
(optional) value, or — in the one-dimension iterable case — the whole
sequence. -/
inductive InferResult (α : Type) where
  | item (v : Option α) : InferResult α
  | whole (l : List α) : InferResult α
deriving DecidableEq

/-- `_infer_arg(arg, dims, default_value)` (lines 349-373).  `None` resolves
every dimension to the default; a scalar resolves every dimension to that
scalar; a mapping resolves each dimension by `try: arg[di] except: default`;
an iterable is assigned whole to a single dimension, or positionally with
`try: arg[i] except: default` otherwise.  The default value is `Option α`,
mirroring the Python default `default_value=None`. -/
def inferArg {α : Type} (arg : InferArg α) (dims : List String) (default : Option α) :
    List (String × InferResult α) :=
  match arg with
  | .null => dims.map (fun di => (di, .item default))
  | .scalar v => dims.map (fun di => (di, .item (some v)))
  | .mapping m =>
      dims.map (fun di =>
        (di, .item (match m.lookup di with | some v => some v | none => default)))
  | .sequence l =>
      if dims.length = 1 then [(dims.getD 0 "", .whole l)]
      else
        (List.range dims.length).map (fun i =>
          (dims.getD i "", .item (match l[i]? with | some v => some v | none => default)))

/-- A one-dimensional `xarray.DataArray`: a name, dimension names, coordinate
labels keyed by dimension name, and a data payload in which `none` stands for
a missing value (NaN). -/
structure DataArray where
  name : Option String
  dims : List String
  coords : List (String × List ℚ)
  data : List (Option ℚ)
deriving DecidableEq

/-- Boundary modes of `scipy.ndimage.convolve`. -/
inductive Mode where
  | reflect
  | nearest
  | wrap
  | mirror
  | constant
deriving DecidableEq

/-- Index extension for mode `reflect` (`d c b a | a b c d | d c b a`):
period `2L`, folding the second half back. -/
def reflectIdx (L : Nat) (i : ℤ) : Nat :=
  if L = 0 then 0
  else
    let r := (i % (2 * (L : ℤ))).toNat
    if r < L then r else 2 * L - 1 - r

/-- Index extension for mode `nearest`: clamp to the valid range. -/
def clampIdx (L : Nat) (i : ℤ) : Nat :=
  if i < 0 then 0 else min i.toNat (L - 1)

/-- Index extension for mode `wrap`: periodic with period `L`. -/
def wrapIdx (L : Nat) (i : ℤ) : Nat :=
  if L = 0 then 0 else (i % (L : ℤ)).toNat

/-- Index extension for mode `mirror` (`d c b | a b c d | c b a`):
period `2L - 2`, the edge samples are not repeated. -/
def mirrorIdx (L : Nat) (i : ℤ) : Nat :=
  if L ≤ 1 then 0
  else
    let r := (i % (2 * (L : ℤ) - 2)).toNat
    if r < L then r else 2 * L - 2 - r

/-- Value of the input extended beyond its boundary according to `mode`
(mode `constant` pads with the default fill value 0). -/
def extVal (mode : Mode) (xs : List ℚ) (i : ℤ) : ℚ :=
  match mode with
  | .reflect => xs.getD (reflectIdx xs.length i) 0
  | .nearest => xs.getD (clampIdx xs.length i) 0
  | .wrap => xs.getD (wrapIdx xs.length i) 0
  | .mirror => xs.getD (mirrorIdx xs.length i) 0
  | .constant => if 0 ≤ i ∧ i < (xs.length : ℤ) then xs.getD i.toNat 0 else 0

/-- `scipy.ndimage.convolve` in one dimension: the output has the length of
the input, and output cell `i` sums `w[j] * input[i - j + c]` over the kernel,
where `c = len(w) / 2` is the kernel center (the source builds odd-order
kernels) and out-of-range input indices are resolved by the boundary mode. -/
def ndConvolve (mode : Mode) (xs : List ℚ) (w : List ℚ) : List ℚ :=
  (List.range xs.length).map (fun (i : Nat) =>
    ((List.range w.length).map (fun (j : Nat) =>
      w.getD j 0 * extVal mode xs ((i : ℤ) - (j : ℤ) + ((w.length / 2 : Nat) : ℤ)))).sum)

/-- `self.obj.notnull()` (line 195): true exactly where the data is present. -/
def notnullMask (a : DataArray) : List Bool := a.data.map Option.isSome

/-- `mask.astype(float)`: booleans as 0/1 rationals. -/
def maskToFloat (m : List Bool) : List ℚ := m.map (fun b => if b then 1 else 0)

/-- `self.obj.fillna(0.)` (line 198): missing values replaced by 0. -/
def fillna (a : DataArray) : List ℚ := a.data.map (fun x => x.getD 0)

/-- `coeffs = self.coefficients / np.sum(self.coefficients)` (line 194). -/
def normalizeCoeffs (c : List ℚ) : List ℚ := c.map (fun x => x / c.sum)

/-- Coordinate merging performed by xarray binary operations such as
`res.where(cond)`: the result carries the union of the two coordinate sets,
the left operand winning on common names. -/
def mergeCoords (a b : List (String × List ℚ)) : List (String × List ℚ) :=
  a ++ b.filter (fun p => !((a.map Prod.fst).contains p.1))

/-- `a.where(cond == 1)` for a boolean condition array carrying its own name
and coordinates: data cells where the condition is false become missing, the
coordinates of the condition are merged into the result, and the name is kept
only when both operands agree on it. -/
def whereMask (a : DataArray) (condName : Option String)
    (condCoords : List (String × List ℚ)) (cond : List Bool) : DataArray :=
  { name := if a.name = condName then a.name else none
    dims := a.dims
    coords := mergeCoords a.coords condCoords
    data := (a.data.zip cond).map (fun p => if p.2 then p.1 else none) }

/-- The state of a configured `Window` accessor that the convolution methods
read: the (chunked) array `self.obj` and the kernel `self.coefficients`. -/
structure Window where
  obj : DataArray
  coefficients : List ℚ

/-- The renormalization field computed internally by `Window.convolve` when
no explicit weights are supplied (step 3 of the documented algorithm, line
197): the mask as floats convolved with the normalized kernel under the
requested boundary mode. -/
def Window.convWeights (w : Window) (mode : Mode) : List ℚ :=
  ndConvolve mode (maskToFloat (notnullMask w.obj)) (normalizeCoeffs w.coefficients)

/-- `Window.convolve` (lines 173-212): normalize the kernel, compute the
mask, default the weights to `convWeights`, zero-fill missing data, convolve
(the dask `map_overlap` chunk protocol is modelled by the whole-array
convolution it reproduces), divide by the weights, rebuild the labelled
array with the dimensions, coordinates and name of `self.obj` (line 210),
and re-null missing cells with `res.where(mask == 1)` (line 212). -/
def Window.convolve (w : Window) (mode : Mode) (weights : Option (List ℚ)) : DataArray :=
  let mask := notnullMask w.obj
  let wts := weights.getD (w.convWeights mode)
  let out := ndConvolve mode (fillna w.obj) (normalizeCoeffs w.coefficients)
  let res : DataArray :=
    { name := w.obj.name
      dims := w.obj.dims
      coords := w.obj.coords
      data := (out.zip wts).map (fun p => some (p.1 / p.2)) }
  whereMask res w.obj.name w.obj.coords mask

/-- `Window.boundary_weights` (lines 241-261).  With the default
`drop_dims=None`, the membership test `di not in drop_dims` on line 256 (or,
for a zero-dimensional array, the iteration over `drop_dims` on line 257)
raises `TypeError` before anything is computed.  Otherwise: `new_dims` keeps
the non-dropped dimensions; `new_coords` iterates `drop_dims` filtered by
`di not in drop_dims`, a self-contradictory comprehension that is always
empty; `mask.isel` fails for a drop dimension absent from the array; in this
one-dimensional model, dropping the dimension leaves a zero-dimensional mask
on which `im.convolve` fails with a rank mismatch against the 1-d kernel;
in the surviving case the mask is convolved with the raw, UNNORMALIZED
`self.coefficients` (line 259), wrapped with `new_dims`/`new_coords`, and
nulled with `res.where(mask == 1)` (line 261). -/
def Window.boundary_weights (w : Window) (mode : Mode) (dropDims : Option (List String)) :
    Except String DataArray :=
  match dropDims with
  | none => Except.error "TypeError: argument of type NoneType is not iterable"
  | some dd =>
      let mask := notnullMask w.obj
      let newDims := w.obj.dims.filter (fun di => !(dd.contains di))
      let newCoords := (dd.filter (fun di => !(dd.contains di))).map
        (fun di => (di, (w.obj.coords.lookup di).getD []))
      if dd.all (fun di => w.obj.dims.contains di) then
        if newDims.length = w.obj.dims.length then
          let weights := ndConvolve mode (maskToFloat mask) w.coefficients
          let res : DataArray :=
            { name := some "boundary weights"
              dims := newDims
              coords := newCoords
              data := weights.map some }
          Except.ok (whereMask res w.obj.name w.obj.coords mask)
        else Except.error "RuntimeError: filter weights array has incorrect shape"
      else Except.error "ValueError: dimensions do not exist"

/-- A configured window over an all-present 1-d array of three cells with a
coordinate, carrying a boxcar kernel of order 3. -/
def W0 : Window :=
  { obj := { name := some "field"
             dims := ["x"]
             coords := [("x", [0, 1, 2])]
             data := [some 1, some 1, some 1] }
    coefficients := [1, 1, 1] }

/-- A configured window over a 1-d array with a missing value in the middle
cell, carrying a boxcar kernel of order 3. -/
def W1 : Window :=
  { obj := { name := none
             dims := ["x"]
             coords := [("x", [0, 1, 2])]
             data := [some 1, none, some 2] }
    coefficients := [1, 1, 1] }

theorem buildAux_replicate (k : Nat) : ∀ s : List Nat,
    buildKernelShapeAux s s.length (List.replicate k none) = s ++ List.replicate k 1 := by
  induction k with
  | zero => intro s; simp [buildKernelShapeAux]
  | succ k ih =>
      intro s
      have hstep : buildStep s s.length none = s ++ [1] := by
        simp [buildStep, npExpandDims]
      have h1 : buildKernelShapeAux s s.length (List.replicate (k + 1) none)
          = buildKernelShapeAux (s ++ [1]) (s.length + 1) (List.replicate k none) := by
        simp [List.replicate_succ, buildKernelShapeAux, hstep]
      have h2 := ih (s ++ [1])
      simp only [List.length_append, List.length_singleton] at h2
      rw [h1, h2]
      simp [List.replicate_succ]

/-- C1, counterexample.  For the array dimension layout (non-filtering,
filtering-of-order-3) — e.g. `set(n=3, dims=["x"])` on an array with
dimensions `("t", "x")` — the kernel built by `set` has shape `(3,)`:
the `squeeze` following the outer product removes the unit axis that
`expand_dims` had inserted for the non-filtering dimension, so the kernel
rank is 1 while the array rank is 2. -/
theorem kernel_rank_cex :
    buildKernelShape [none, some 3] = [3] ∧
    (buildKernelShape [none, some 3]).length ≠ ([none, some 3] : List (Option Nat)).length := by
  decide

/-- C1, amended.  When every filtering dimension precedes every
non-filtering dimension in the array's own axis order, there are at most
two filtering dimensions, and every filtering order is at least 2, the
kernel shape is the claimed one: each filtering axis has length equal to
its order, each non-filtering axis has length 1, and the kernel rank equals
the array rank.  (Outside these conditions the claim fails: `np.outer`
flattens the running kernel, and the subsequent `squeeze` deletes every
previously inserted unit axis and every order-1 filtering axis.) -/
theorem kernel_rank_amended (ms : List Nat) (k : Nat)
    (hlen : ms.length ≤ 2) (hord : ∀ m ∈ ms, 2 ≤ m) :
    buildKernelShape (ms.map some ++ List.replicate k none) = ms ++ List.replicate k 1 := by
  match ms, hlen with
  | [], _ =>
      simpa [buildKernelShape] using buildAux_replicate k []
  | [a], _ =>
      have ha : (a != 1) = true := by
        have h2 : 2 ≤ a := hord a (by simp)
        simp [bne_iff_ne]
        omega
      have h1 : buildStep [] 0 (some a) = [a] := by
        simp [buildStep, npOuterShape, npSqueeze, List.filter_cons, ha]
      have h2 := buildAux_replicate k [a]
      simp only [List.length_singleton] at h2
      simp [buildKernelShape, buildKernelShapeAux, h1, h2]
  | [a, b], _ =>
      have ha : (a != 1) = true := by
        have h2 : 2 ≤ a := hord a (by simp)
        simp [bne_iff_ne]
        omega
      have hb : (b != 1) = true := by
        have h2 : 2 ≤ b := hord b (by simp)
        simp [bne_iff_ne]
        omega
      have h1 : buildStep [] 0 (some a) = [a] := by
        simp [buildStep, npOuterShape, npSqueeze, List.filter_cons, ha]
      have h2 : buildStep [a] 1 (some b) = [a, b] := by
        simp [buildStep, npOuterShape, npSqueeze, List.filter_cons, ha, hb]
      have h3 := buildAux_replicate k [a, b]
      simp only [List.length_cons, List.length_nil] at h3
      simp [buildKernelShape, buildKernelShapeAux, h1, h2, h3]

/-- Witness for the amended C1 at a concrete configuration: two leading
filtering dimensions of orders 3 and 5 followed by one non-filtering
dimension give the kernel shape `(3, 5, 1)`. -/
theorem kernel_rank_amended_witness :
    buildKernelShape ([3, 5].map some ++ List.replicate 1 none)
      = [3, 5] ++ List.replicate 1 1 :=
  kernel_rank_amended [3, 5] 1 (by decide) (by decide)

theorem lookup_buildDepthAux_lt :
    ∀ (cfg : List (Option Nat)) (j k : Nat), k < j →
      (buildDepthAux j cfg).lookup k = none := by
  intro cfg
  induction cfg with
  | nil => intro j k hk; rfl
  | cons o rest ih =>
      intro j k hk
      cases o with
      | none =>
          simpa [buildDepthAux] using ih (j + 1) k (by omega)
      | some m =>
          have hne : (k == j) = false := beq_eq_false_iff_ne.mpr (by omega)
          simpa [buildDepthAux, List.lookup, hne] using ih (j + 1) k (by omega)

theorem lookup_buildDepthAux :
    ∀ (cfg : List (Option Nat)) (j i : Nat),
      (buildDepthAux j cfg).lookup (j + i) = (cfg.getD i none).map (fun m => m % 2) := by
  intro cfg
  induction cfg with
  | nil => intro j i; simp [buildDepthAux, List.getD]
  | cons o rest ih =>
      intro j i
      cases o with
      | some m =>
          cases i with
          | zero => simp [buildDepthAux, List.lookup]
          | succ n =>
              have hne : (j + (n + 1) == j) = false := beq_eq_false_iff_ne.mpr (by omega)
              have h := ih (j + 1) n
              rw [show (j + 1) + n = j + (n + 1) by omega] at h
              simpa [buildDepthAux, List.lookup, hne] using h
      | none =>
          cases i with
          | zero =>
              simpa [buildDepthAux] using lookup_buildDepthAux_lt rest (j + 1) j (by omega)
          | succ n =>
              have h := ih (j + 1) n
              rw [show (j + 1) + n = j + (n + 1) by omega] at h
              simpa [buildDepthAux] using h

/-- C4.  The `_depth` mapping built by `set` is keyed by axis position:
a filtering axis of order `m` is assigned `m % 2`, a non-filtering axis has
no entry at all, and the effective depth consumed by `map_overlap` (which
coerces missing axes to 0) is therefore `order % 2` on filtering axes and 0
on non-filtering axes. -/
theorem halo_depth_spec (cfg : List (Option Nat)) (i : Nat) :
    (buildDepth cfg).lookup i = (cfg.getD i none).map (fun m => m % 2) ∧
    depthAt cfg i = ((cfg.getD i none).map (fun m => m % 2)).getD 0 := by
  have h := lookup_buildDepthAux cfg 0 i
  rw [Nat.zero_add] at h
  refine ⟨h, ?_⟩
  unfold depthAt
  rw [show (buildDepth cfg) = buildDepthAux 0 cfg from rfl, h]

/-- C3, evaluation at the failing input `n = 5`.  Because the module runs
under `from __future__ import division`, the index grid of `_lanczos` at
`n = 5` is the half-integer progression `[-3/2, -1/2, 1/2, 3/2, 5/2]`: it
contains no `k = 0` (contradicting the source's own comment at the center
write), it is not symmetric about 0 (`k[0] = -3/2` while `-k[4] = -5/2`, so
the even window formula cannot yield `w[i] = w[n-1-i]`), and the center
write targets the non-integer index `n / 2 = 5/2`, which is not a valid
array index.  The docstring and comments show the intended grid is the
integer one `-(n-1)/2 .. (n-1)/2` of the claim. -/
theorem lanczos_grid_divergence :
    (lanczosGrid 5).toOption = some [-3/2, -1/2, 1/2, 3/2, 5/2] ∧
    (0 : ℚ) ∉ lanczosK 5 ∧
    (lanczosK 5).getD 0 0 ≠ -((lanczosK 5).getD 4 0) ∧
    ¬ ∃ z : ℤ, lanczosCenterIndex 5 = (z : ℚ) := by
  have hK : lanczosK 5 = [-3/2, -1/2, 1/2, 3/2, 5/2] := by
    unfold lanczosK
    rw [show (5 : ℤ).toNat = 5 from rfl, show List.range 5 = [0, 1, 2, 3, 4] from rfl]
    simp only [List.map]
    norm_num
  refine ⟨?_, ?_, ?_, ?_⟩
  · unfold lanczosGrid
    rw [if_pos (by decide : (5 : ℤ) % 2 = 1), hK]
    rfl
  · rw [hK]
    norm_num
  · rw [hK]
    norm_num [List.getD]
  · rintro ⟨z, hz⟩
    have h5 : (2 : ℚ) * (z : ℚ) = 5 := by
      rw [← hz]
      norm_num [lanczosCenterIndex]
    have h5i : (2 : ℤ) * z = 5 := by exact_mod_cast h5
    omega

/-- C8.  `_lanczos` rejects every even window length: `n % 2` is 0, not 1,
so the guard raises `ValueError("n must an odd integer")` and no coefficient
sequence is returned. -/
theorem lanczos_rejects_even (n : ℤ) (h : n % 2 = 0) :
    lanczosGrid n = Except.error "n must an odd integer" := by
  unfold lanczosGrid
  rw [if_neg (by omega : ¬ n % 2 = 1)]

/-- Witness for C8 at the concrete even length `n = 4`. -/
theorem lanczos_rejects_even_witness :
    lanczosGrid 4 = Except.error "n must an odd integer" :=
  lanczos_rejects_even 4 (by decide)

theorem lookup_map_pair {α : Type} (f : String → α) :
    ∀ (dims : List String) (d : String), d ∈ dims →
      (dims.map (fun di => (di, f di))).lookup d = some (f d) := by
  intro dims
  induction dims with
  | nil => intro d hd; cases hd
  | cons a rest ih =>
      intro d hd
      by_cases hda : d = a
      · subst hda; simp [List.lookup]
      · have hmem : d ∈ rest := by
          rcases List.mem_cons.mp hd with h | h
          · exact absurd h hda
          · exact h
        simpa [List.lookup, beq_eq_false_iff_ne.mpr hda] using ih d hmem

/-- C5.  `_infer_arg` resolves every selected dimension: a scalar argument
gives that scalar for every dimension, `None` gives the default for every
dimension, and a mapping gives the mapped value for dimensions present in
it and the default for every other dimension (the `try/except` around
`arg[di]` means a missing key never fails). -/
theorem infer_arg_resolves {α : Type} (dims : List String) (default : Option α)
    (d : String) (hd : d ∈ dims) :
    (∀ v : α, (inferArg (InferArg.scalar v) dims default).lookup d
        = some (InferResult.item (some v))) ∧
    (inferArg InferArg.null dims default).lookup d = some (InferResult.item default) ∧
    (∀ m : List (String × α), (inferArg (InferArg.mapping m) dims default).lookup d
        = some (InferResult.item
            (match m.lookup d with | some v => some v | none => default))) := by
  refine ⟨fun v => ?_, ?_, fun m => ?_⟩
  · exact lookup_map_pair (fun _ => InferResult.item (some v)) dims d hd
  · exact lookup_map_pair (fun _ => InferResult.item default) dims d hd
  · exact lookup_map_pair
      (fun di => InferResult.item (match m.lookup di with | some v => some v | none => default))
      dims d hd

/-- Witness for C5 on the dimensions `["x", "y"]` with default `None`:
a scalar resolves `"y"` to itself, `None` resolves `"y"` to the default,
and the mapping `{"x": 7}` resolves the absent key `"y"` to the default
without failing. -/
theorem infer_arg_resolves_witness :
    (inferArg (InferArg.scalar (5 : ℚ)) ["x", "y"] none).lookup "y"
        = some (InferResult.item (some 5)) ∧
    (inferArg (InferArg.null : InferArg ℚ) ["x", "y"] none).lookup "y"
        = some (InferResult.item none) ∧
    (inferArg (InferArg.mapping [("x", (7 : ℚ))]) ["x", "y"] none).lookup "y"
        = some (InferResult.item none) := by
  have h := infer_arg_resolves ["x", "y"] (none : Option ℚ) "y" (by simp)
  exact ⟨h.1 5, h.2.1, (h.2.2 [("x", 7)]).trans rfl⟩

theorem maskZip_getD_none :
    ∀ (res : List (Option ℚ)) (src : List (Option ℚ)) (i : Nat),
      src.getD i none = none →
      ((res.zip (src.map Option.isSome)).map
        (fun p => if p.2 then p.1 else none)).getD i none = none := by
  intro res src
  induction src generalizing res with
  | nil => intro i h; simp
  | cons s st ih =>
      intro i h
      cases res with
      | nil => simp
      | cons r rt =>
          cases i with
          | zero =>
              have hs : s = none := by simpa [List.getD] using h
              subst hs
              simp
          | succ n =>
              have h2 : st.getD n none = none := by simpa [List.getD] using h
              simpa [List.getD] using ih rt n h2

/-- C6.  `convolve` never produces a value where the input had no data: the
final `res.where(mask == 1)` nulls every cell whose original mask is false,
so a missing input cell is missing in the output, for any boundary mode and
any (default or caller-supplied) weights. -/
theorem convolve_preserves_missing (w : Window) (mode : Mode)
    (weights : Option (List ℚ)) (i : Nat) (h : w.obj.data.getD i none = none) :
    (w.convolve mode weights).data.getD i none = none := by
  simp only [Window.convolve, whereMask, notnullMask]
  exact maskZip_getD_none _ _ i h

/-- Witness for C6: the middle cell of `W1` is missing, and the convolved
output is missing there as well. -/
theorem convolve_preserves_missing_witness :
    (W1.convolve Mode.reflect none).data.getD 1 none = none :=
  convolve_preserves_missing W1 Mode.reflect none 1 rfl

theorem mergeCoords_self (c : List (String × List ℚ)) : mergeCoords c c = c := by
  unfold mergeCoords
  have hnil : c.filter (fun p => !((c.map Prod.fst).contains p.1)) = [] := by
    apply List.filter_eq_nil_iff.mpr
    intro p hp
    simp only [Bool.not_eq_true', Bool.not_eq_false]
    exact List.elem_eq_true_of_mem (List.mem_map_of_mem Prod.fst hp)
  rw [hnil, List.append_nil]

/-- C7.  `convolve` rebuilds the result with the dimensions, coordinates and
name of the input array (line 210), and the final `where` masks against a
condition carrying those same coordinates and name, so the returned array
has exactly the input's dimension names, coordinate labels and name. -/
theorem convolve_preserves_metadata (w : Window) (mode : Mode)
    (weights : Option (List ℚ)) :
    (w.convolve mode weights).dims = w.obj.dims ∧
    (w.convolve mode weights).coords = w.obj.coords ∧
    (w.convolve mode weights).name = w.obj.name := by
  refine ⟨rfl, ?_, ?_⟩
  · simp only [Window.convolve, whereMask]
    exact mergeCoords_self _
  · simp [Window.convolve, whereMask]

/-- C9.  With the default `drop_dims=None`, `boundary_weights` always fails:
the membership test `di not in drop_dims` (line 256) — or, for an array with
no dimensions, the iteration over `drop_dims` on line 257 — raises
`TypeError` before any weight field is computed. -/
theorem boundary_weights_rejects_default (w : Window) (mode : Mode) :
    w.boundary_weights mode none
      = Except.error "TypeError: argument of type NoneType is not iterable" := rfl

theorem getD_map_div (c : List ℚ) (s : ℚ) :
    ∀ j, (c.map (fun x => x / s)).getD j 0 = c.getD j 0 / s := by
  induction c with
  | nil => intro j; simp
  | cons a t ih =>
      intro j
      cases j with
      | zero => simp
      | succ n => simpa [List.getD] using ih n

theorem sum_map_div {β : Type} (f : β → ℚ) (s : ℚ) (l : List β) :
    (l.map (fun x => f x / s)).sum = (l.map f).sum / s := by
  induction l with
  | nil => simp
  | cons a t ih => simp [ih, add_div]

/-- Linearity of the convolution in the kernel: convolving with the
normalized kernel is convolving with the raw kernel and dividing by the
coefficient sum (in ℚ this also holds for sum 0, where both sides
degenerate to 0). -/
theorem ndConvolve_normalizeCoeffs (mode : Mode) (xs c : List ℚ) :
    ndConvolve mode xs (normalizeCoeffs c)
      = (ndConvolve mode xs c).map (fun v => v / c.sum) := by
  unfold ndConvolve normalizeCoeffs
  rw [List.length_map, List.map_map]
  refine congrArg (fun f => (List.range xs.length).map f) (funext fun i => ?_)
  have hterm : (fun j => (c.map (fun x => x / c.sum)).getD j 0
        * extVal mode xs ((i : ℤ) - (j : ℤ) + ((c.length / 2 : Nat) : ℤ)))
      = fun j => (c.getD j 0
        * extVal mode xs ((i : ℤ) - (j : ℤ) + ((c.length / 2 : Nat) : ℤ))) / c.sum := by
    funext j
    rw [getD_map_div, div_mul_eq_mul_div]
  rw [hterm, sum_map_div]
  rfl

theorem map_scale_div (l : List ℚ) (s : ℚ) (h : s ≠ 0) :
    (l.map (fun v => v / s)).map (fun v => s * v) = l := by
  induction l with
  | nil => rfl
  | cons a t ih =>
      simp only [List.map_cons, ih, List.cons.injEq, and_true]
      field_simp

theorem maskSome_zip (l : List ℚ) :
    ∀ m : List Bool,
      ((l.map some).zip m).map (fun p => if p.2 then p.1 else none)
        = (l.zip m).map (fun p => if p.2 then some p.1 else none) := by
  induction l with
  | nil => intro m; rfl
  | cons a t ih =>
      intro m
      cases m with
      | nil => rfl
      | cons b mt => simp [ih]

theorem filter_contains_nil (l : List String) :
    l.filter (fun di => !(([] : List String).contains di)) = l := by
  induction l with
  | nil => rfl
  | cons a t ih => simp [List.filter_cons, ih]

theorem mergeCoords_nil_left (c : List (String × List ℚ)) : mergeCoords [] c = c := by
  unfold mergeCoords
  rw [List.nil_append]
  induction c with
  | nil => rfl
  | cons a t ih => simp [List.filter_cons, ih]

/-- C2, counterexample.  On the all-present window `W0` with a boxcar kernel
of order 3 and no dropped dimensions, `boundary_weights` returns the field
`[3, 3, 3]` — the mask convolved with the RAW coefficients (line 259) —
while the weights field `convolve` computes internally in its step 3 uses
the normalized kernel and equals `[1, 1, 1]`.  The two fields differ by the
factor `sum(coefficients) = 3`, so the claimed equality fails. -/
theorem boundary_weights_cex :
    (W0.boundary_weights Mode.reflect (some [])).toOption.map DataArray.data
      = some [some 3, some 3, some 3] ∧
    (W0.convWeights Mode.reflect).map some = [some 1, some 1, some 1] ∧
    ([some 3, some 3, some 3] : List (Option ℚ))
      ≠ ([some 1, some 1, some 1] : List (Option ℚ)) := by
  have hconv : ndConvolve Mode.reflect [1, 1, 1] [1, 1, 1] = [3, 3, 3] := by
    unfold ndConvolve
    norm_num [List.range_succ, extVal, reflectIdx, List.getD,
      show Int.toNat 2 = 2 from rfl, show Int.toNat 3 = 3 from rfl]
  have hnorm : normalizeCoeffs [1, 1, 1] = [3⁻¹, 3⁻¹, 3⁻¹] := by
    norm_num [normalizeCoeffs]
  have hconv2 : ndConvolve Mode.reflect [1, 1, 1] [3⁻¹, 3⁻¹, 3⁻¹] = [1, 1, 1] := by
    unfold ndConvolve
    norm_num [List.range_succ, extVal, reflectIdx, List.getD,
      show Int.toNat 2 = 2 from rfl, show Int.toNat 3 = 3 from rfl]
  refine ⟨?_, ?_, ?_⟩
  · simp [Window.boundary_weights, W0, whereMask, notnullMask, maskToFloat,
      Except.toOption, hconv]
  · simp [Window.convWeights, W0, notnullMask, maskToFloat, hnorm, hconv2]
  · simp

/-- C2, amended.  With no dropped dimensions, `boundary_weights` computes
`sum(coefficients)` times the weights field that `convolve` computes
internally in its step 3 under the same boundary mode, nulled where the mask
is false: the standalone diagnostic forgets to normalize the kernel, so it
equals the internal field only when the coefficients already sum to 1. -/
theorem boundary_weights_vs_convolve (w : Window) (mode : Mode)
    (h : w.coefficients.sum ≠ 0) :
    (w.boundary_weights mode (some [])).map DataArray.data
      = Except.ok ((((w.convWeights mode).map (fun v => w.coefficients.sum * v)).zip
          (notnullMask w.obj)).map (fun p => if p.2 then some p.1 else none)) := by
  have hkey : (w.convWeights mode).map (fun v => w.coefficients.sum * v)
      = ndConvolve mode (maskToFloat (notnullMask w.obj)) w.coefficients := by
    rw [Window.convWeights, ndConvolve_normalizeCoeffs, map_scale_div _ _ h]
  rw [hkey]
  simp only [Window.boundary_weights, List.all_nil, filter_contains_nil,
    eq_self_iff_true, if_true, Except.map, whereMask, maskSome_zip]

/-- Witness for the amended C2 on the concrete window `W0`, whose kernel has
the nonzero coefficient sum 3. -/
theorem boundary_weights_vs_convolve_witness :
    (W0.boundary_weights Mode.reflect (some [])).map DataArray.data
      = Except.ok ((((W0.convWeights Mode.reflect).map
          (fun v => W0.coefficients.sum * v)).zip (notnullMask W0.obj)).map
          (fun p => if p.2 then some p.1 else none)) :=
  boundary_weights_vs_convolve W0 Mode.reflect (by norm_num [W0])

/-- C10, counterexample.  On `W0` (whose single dimension carries a
coordinate), the field returned by `boundary_weights` with an empty
`drop_dims` carries the coordinate `x -> [0, 1, 2]`: the `coords` set of
the result is not empty. -/
theorem boundary_weights_coords_cex :
    (W0.boundary_weights Mode.reflect (some [])).toOption.map DataArray.coords
      = some [("x", [0, 1, 2])] ∧
    ([("x", ([0, 1, 2] : List ℚ))] : List (String × List ℚ)) ≠ [] := by
  constructor
  · simp [Window.boundary_weights, W0, whereMask, mergeCoords, Except.toOption]
  · simp

/-- C10, amended.  The DataArray constructed inside `boundary_weights` does
carry an empty coordinate mapping — the comprehension
`for di in drop_dims if di not in drop_dims` (line 257) is self-contradictory
and always yields an empty dict — but the final `res.where(mask == 1)`
(line 261) merges the mask's coordinates into the result, so the returned
field carries exactly the source array's coordinates on the non-dropped
dimensions, not an empty coordinate set. -/
theorem boundary_weights_coords_amended (w : Window) (mode : Mode) :
    (w.boundary_weights mode (some [])).map DataArray.coords
      = Except.ok w.obj.coords := by
  simp only [Window.boundary_weights, List.all_nil, filter_contains_nil,
    eq_self_iff_true, if_true, Except.map, whereMask, List.filter_nil,
    List.map_nil, mergeCoords_nil_left]
